import Mathlib

/-!
Verification of the `model_integrity_checker` package against its design
specification.

The development shallowly embeds the Python sources
(`src/model_integrity_checker/__init__.py` and
`src/model_integrity_checker/cli.py`) into Lean:

* the filesystem is an explicit association list from paths (component
  lists) to file entries, where an entry is either readable text content
  or an existing-but-unreadable file (modelling a permission failure on
  `open`);
* `hashlib` digests are modelled by executable reimplementations of
  SHA-256, SHA-1 and MD5 over byte lists (`Nat` values below 256), with
  the incremental hasher object modelled as an algorithm tag plus the
  accumulated bytes fed to `update`;
* `json.dump(…, indent=2)` / `json.load` are modelled by an executable
  serializer and parser for flat string-to-string JSON objects, including
  the `ensure_ascii` escaping (`\uXXXX` and surrogate pairs) that
  `json.dump` produces;
* fallible Python code returns `Except PyError`; an `Except.error` that a
  CLI handler does not catch models an uncaught exception escaping
  `main` (a crash).
-/

namespace ModelIntegrity

/-! ## 32-bit word arithmetic on `Nat` -/

/-- Truncate to a 32-bit word. -/
def w32 (x : Nat) : Nat := x % 4294967296

/-- Addition modulo 2 to the 32. -/
def add32 (a b : Nat) : Nat := (a + b) % 4294967296

/-- Rotate a 32-bit word right by `n` (for `0 < n < 32`). -/
def rotr32 (x n : Nat) : Nat := w32 ((x >>> n) ||| (x <<< (32 - n)))

/-- Rotate a 32-bit word left by `n` (for `0 < n < 32`). -/
def rotl32 (x n : Nat) : Nat := w32 ((x <<< n) ||| (x >>> (32 - n)))

/-- Bitwise complement of a 32-bit word. -/
def not32 (x : Nat) : Nat := x ^^^ 0xFFFFFFFF

/-- Worker for `chunksOf`, structurally recursive on a fuel bound so that
it reduces inside the kernel; one unit of fuel is spent per chunk. -/
def chunksOfGo (n : Nat) : Nat → List α → List (List α)
  | _, [] => []
  | 0, _ => []
  | fuel + 1, l => l.take n :: chunksOfGo n fuel (l.drop n)

/-- Split a list into chunks of `n` elements (the last chunk may be
shorter); used both for the 8 KiB read loop of `calculate_checksum` and
for the 64-byte blocks of the hash functions. -/
def chunksOf (n : Nat) (l : List α) : List (List α) :=
  if n = 0 then [] else chunksOfGo n l.length l

/-- Big-endian 32-bit words from a byte list (groups of 4). -/
def wordsBE : List Nat → List Nat
  | b0 :: b1 :: b2 :: b3 :: rest =>
      (b0 * 16777216 + b1 * 65536 + b2 * 256 + b3) :: wordsBE rest
  | _ => []

/-- Little-endian 32-bit words from a byte list (groups of 4). -/
def wordsLE : List Nat → List Nat
  | b0 :: b1 :: b2 :: b3 :: rest =>
      (b0 + b1 * 256 + b2 * 65536 + b3 * 16777216) :: wordsLE rest
  | _ => []

/-- Big-endian bytes of a 32-bit word. -/
def wordBytesBE (w : Nat) : List Nat :=
  [w / 16777216 % 256, w / 65536 % 256, w / 256 % 256, w % 256]

/-- Little-endian bytes of a 32-bit word. -/
def wordBytesLE (w : Nat) : List Nat :=
  [w % 256, w / 256 % 256, w / 65536 % 256, w / 16777216 % 256]

/-- Big-endian bytes of a 64-bit value (the length field of SHA padding). -/
def lenBytesBE (n : Nat) : List Nat :=
  [n / 2 ^ 56 % 256, n / 2 ^ 48 % 256, n / 2 ^ 40 % 256, n / 2 ^ 32 % 256,
   n / 2 ^ 24 % 256, n / 2 ^ 16 % 256, n / 2 ^ 8 % 256, n % 256]

/-- Little-endian bytes of a 64-bit value (the length field of MD5 padding). -/
def lenBytesLE (n : Nat) : List Nat :=
  [n % 256, n / 2 ^ 8 % 256, n / 2 ^ 16 % 256, n / 2 ^ 24 % 256,
   n / 2 ^ 32 % 256, n / 2 ^ 40 % 256, n / 2 ^ 48 % 256, n / 2 ^ 56 % 256]

/-- Merkle–Damgård padding with big-endian length (SHA-1, SHA-256). -/
def padBE (msg : List Nat) : List Nat :=
  msg ++ 0x80 :: List.replicate ((119 - msg.length % 64) % 64) 0
      ++ lenBytesBE (8 * msg.length % 2 ^ 64)

/-- Merkle–Damgård padding with little-endian length (MD5). -/
def padLE (msg : List Nat) : List Nat :=
  msg ++ 0x80 :: List.replicate ((119 - msg.length % 64) % 64) 0
      ++ lenBytesLE (8 * msg.length % 2 ^ 64)

/-! ## SHA-256 -/

/-- Round constants of SHA-256. -/
def sha256K : List Nat :=
  [1116352408, 1899447441, 3049323471, 3921009573, 961987163, 1508970993,
   2453635748, 2870763221, 3624381080, 310598401, 607225278, 1426881987,
   1925078388, 2162078206, 2614888103, 3248222580, 3835390401, 4022224774,
   264347078, 604807628, 770255983, 1249150122, 1555081692, 1996064986,
   2554220882, 2821834349, 2952996808, 3210313671, 3336571891, 3584528711,
   113926993, 338241895, 666307205, 773529912, 1294757372, 1396182291,
   1695183700, 1986661051, 2177026350, 2456956037, 2730485921, 2820302411,
   3259730800, 3345764771, 3516065817, 3600352804, 4094571909, 275423344,
   430227734, 506948616, 659060556, 883997877, 958139571, 1322822218,
   1537002063, 1747873779, 1955562222, 2024104815, 2227730452, 2361852424,
   2428436474, 2756734187, 3204031479, 3329325298]

/-- Initial hash state of SHA-256. -/
def sha256H0 : List Nat :=
  [1779033703, 3144134277, 1013904242, 2773480762,
   1359893119, 2600822924, 528734635, 1541459225]

/-- Extend the 16 block words to the 64-entry SHA-256 message schedule. -/
def sha256Schedule (ws : Array Nat) : Array Nat :=
  (List.range 48).foldl
    (fun w i =>
      let s0 := rotr32 (w.get! (i + 1)) 7 ^^^ rotr32 (w.get! (i + 1)) 18
                  ^^^ (w.get! (i + 1) >>> 3)
      let s1 := rotr32 (w.get! (i + 14)) 17 ^^^ rotr32 (w.get! (i + 14)) 19
                  ^^^ (w.get! (i + 14) >>> 10)
      w.push (add32 (add32 (w.get! i) s0) (add32 (w.get! (i + 9)) s1)))
    ws

/-- One SHA-256 round on the state `[a, b, c, d, e, f, g, h]`. -/
def sha256Round (st : List Nat) (k w : Nat) : List Nat :=
  match st with
  | [a, b, c, d, e, f, g, h] =>
    let s1 := rotr32 e 6 ^^^ rotr32 e 11 ^^^ rotr32 e 25
    let ch := (e &&& f) ^^^ (not32 e &&& g)
    let t1 := add32 h (add32 s1 (add32 ch (add32 k w)))
    let s0 := rotr32 a 2 ^^^ rotr32 a 13 ^^^ rotr32 a 22
    let mj := (a &&& b) ^^^ (a &&& c) ^^^ (b &&& c)
    let t2 := add32 s0 mj
    [add32 t1 t2, a, b, c, add32 d t1, e, f, g]
  | _ => st

/-- Compress one 64-byte block into the SHA-256 state. -/
def sha256Block (h : List Nat) (block : List Nat) : List Nat :=
  let ws := sha256Schedule (wordsBE block).toArray
  let st := (List.zip sha256K ws.toList).foldl
    (fun st kw => sha256Round st kw.1 kw.2) h
  List.zipWith add32 h st

/-- SHA-256 digest (32 bytes) of a byte list. -/
def sha256Bytes (msg : List Nat) : List Nat :=
  ((chunksOf 64 (padBE msg)).foldl sha256Block sha256H0).flatMap wordBytesBE

/-! ## SHA-1 -/

/-- Initial hash state of SHA-1. -/
def sha1H0 : List Nat :=
  [1732584193, 4023233417, 2562383102, 271733878, 3285377520]

/-- Extend the 16 block words to the 80-entry SHA-1 message schedule. -/
def sha1Schedule (ws : Array Nat) : Array Nat :=
  (List.range 64).foldl
    (fun w i =>
      w.push (rotl32 (w.get! (i + 13) ^^^ w.get! (i + 8)
                        ^^^ w.get! (i + 2) ^^^ w.get! i) 1))
    ws

/-- Round function and constant of SHA-1 for round `t`. -/
def sha1FK (t b c d : Nat) : Nat × Nat :=
  if t < 20 then ((b &&& c) ^^^ (not32 b &&& d), 0x5a827999)
  else if t < 40 then (b ^^^ c ^^^ d, 0x6ed9eba1)
  else if t < 60 then ((b &&& c) ||| (b &&& d) ||| (c &&& d), 0x8f1bbcdc)
  else (b ^^^ c ^^^ d, 0xca62c1d6)

/-- One SHA-1 round on the state `[a, b, c, d, e]`. -/
def sha1Round (st : List Nat) (t w : Nat) : List Nat :=
  match st with
  | [a, b, c, d, e] =>
    let fk := sha1FK t b c d
    let tmp := add32 (rotl32 a 5) (add32 fk.1 (add32 e (add32 fk.2 w)))
    [tmp, a, rotl32 b 30, c, d]
  | _ => st

/-- Compress one 64-byte block into the SHA-1 state. -/
def sha1Block (h : List Nat) (block : List Nat) : List Nat :=
  let ws := sha1Schedule (wordsBE block).toArray
  let st := (List.zip (List.range 80) ws.toList).foldl
    (fun st tw => sha1Round st tw.1 tw.2) h
  List.zipWith add32 h st

/-- SHA-1 digest (20 bytes) of a byte list. -/
def sha1Bytes (msg : List Nat) : List Nat :=
  ((chunksOf 64 (padBE msg)).foldl sha1Block sha1H0).flatMap wordBytesBE

/-! ## MD5 -/

/-- Sine-derived round constants of MD5. -/
def md5K : List Nat :=
  [3614090360, 3905402710, 606105819, 3250441966, 4118548399, 1200080426,
   2821735955, 4249261313, 1770035416, 2336552879, 4294925233, 2304563134,
   1804603682, 4254626195, 2792965006, 1236535329, 4129170786, 3225465664,
   643717713, 3921069994, 3593408605, 38016083, 3634488961, 3889429448,
   568446438, 3275163606, 4107603335, 1163531501, 2850285829, 4243563512,
   1735328473, 2368359562, 4294588738, 2272392833, 1839030562, 4259657740,
   2763975236, 1272893353, 4139469664, 3200236656, 681279174, 3936430074,
   3572445317, 76029189, 3654602809, 3873151461, 530742520, 3299628645,
   4096336452, 1126891415, 2878612391, 4237533241, 1700485571, 2399980690,
   4293915773, 2240044497, 1873313359, 4264355552, 2734768916, 1309151649,
   4149444226, 3174756917, 718787259, 3951481745]

/-- Per-round left-rotation amounts of MD5. -/
def md5S : List Nat :=
  [7, 12, 17, 22, 7, 12, 17, 22, 7, 12, 17, 22, 7, 12, 17, 22,
   5, 9, 14, 20, 5, 9, 14, 20, 5, 9, 14, 20, 5, 9, 14, 20,
   4, 11, 16, 23, 4, 11, 16, 23, 4, 11, 16, 23, 4, 11, 16, 23,
   6, 10, 15, 21, 6, 10, 15, 21, 6, 10, 15, 21, 6, 10, 15, 21]

/-- Initial hash state of MD5. -/
def md5H0 : List Nat := [1732584193, 4023233417, 2562383102, 271733878]

/-- Mixing function and message-word index of MD5 for round `i`. -/
def md5FG (i b c d : Nat) : Nat × Nat :=
  if i < 16 then ((b &&& c) ||| (not32 b &&& d), i)
  else if i < 32 then ((d &&& b) ||| (not32 d &&& c), (5 * i + 1) % 16)
  else if i < 48 then (b ^^^ c ^^^ d, (3 * i + 5) % 16)
  else (c ^^^ (b ||| not32 d), 7 * i % 16)

/-- One MD5 round on the state `[a, b, c, d]`, over block words `m`. -/
def md5Round (m : List Nat) (st : List Nat) (i : Nat) : List Nat :=
  match st with
  | [a, b, c, d] =>
    let fg := md5FG i b c d
    let x := add32 (add32 fg.1 a) (add32 (md5K.getD i 0) (m.getD fg.2 0))
    [d, add32 b (rotl32 x (md5S.getD i 0)), b, c]
  | _ => st

/-- Compress one 64-byte block into the MD5 state. -/
def md5Block (h : List Nat) (block : List Nat) : List Nat :=
  let m := wordsLE block
  let st := (List.range 64).foldl (md5Round m) h
  List.zipWith add32 h st

/-- MD5 digest (16 bytes) of a byte list. -/
def md5Bytes (msg : List Nat) : List Nat :=
  ((chunksOf 64 (padLE msg)).foldl md5Block md5H0).flatMap wordBytesLE

/-! ## Hex rendering and UTF-8 -/

/-- Lowercase hex digit for `k < 16`. -/
def hexDig (k : Nat) : Char :=
  if k < 10 then Char.ofNat (48 + k) else Char.ofNat (87 + k)

/-- Two lowercase hex digits of a byte. -/
def byteHex (b : Nat) : List Char := [hexDig (b / 16 % 16), hexDig (b % 16)]

/-- Lowercase hex string of a byte list, as produced by `hexdigest()`. -/
def bytesToHex (bs : List Nat) : String := String.mk (bs.flatMap byteHex)

/-- UTF-8 encoding of one character. -/
def utf8Char (c : Char) : List Nat :=
  let n := c.toNat
  if n < 0x80 then [n]
  else if n < 0x800 then [0xc0 + n / 64, 0x80 + n % 64]
  else if n < 0x10000 then
    [0xe0 + n / 4096, 0x80 + n / 64 % 64, 0x80 + n % 64]
  else
    [0xf0 + n / 262144, 0x80 + n / 4096 % 64, 0x80 + n / 64 % 64,
     0x80 + n % 64]

/-- UTF-8 encoding of a character list (file contents are text in this
model; Python reads the same bytes the file holds). -/
def utf8Encode (s : List Char) : List Nat := s.flatMap utf8Char

/-! ## String helpers mirroring the Python string methods -/

/-- The Python `str.lower()` call, on the ASCII range (the algorithm
selectors compared against are pure ASCII, and no non-ASCII character
lowercases to an ASCII one relevant to that comparison). -/
def strLower (s : String) : String := String.mk (s.data.map Char.toLower)

/-- The Python `str.endswith(suffix)` call. -/
def strEndsWith (s suffix : String) : Bool := suffix.data.isSuffixOf s.data

/-- Worker for `pySplit`. -/
def pySplitGo (sep : Char) : List Char → List Char → List String
  | [], acc => [String.mk acc.reverse]
  | c :: t, acc =>
    if c = sep then String.mk acc.reverse :: pySplitGo sep t []
    else pySplitGo sep t (c :: acc)

/-- The Python `str.split(sep)` call for a one-character separator, as
`cmd_scan` uses it on the `--formats` value. -/
def pySplit (sep : Char) (s : String) : List String := pySplitGo sep s.data []

/-! ## Python errors and the filesystem model -/

/-- The Python exceptions the package can raise.  `jsonDecodeError` models
`json.JSONDecodeError`, which is a subclass of `ValueError` in Python;
`permissionError` models `PermissionError` (a subclass of `OSError`, and a
sibling, not a subclass, of `FileNotFoundError`). -/
inductive PyError where
  | fileNotFound (msg : String)
  | valueError (msg : String)
  | permissionError (msg : String)
  | jsonDecodeError (msg : String)
  deriving DecidableEq, Repr

/-- Message carried by the exception, as `str(e)` would render it. -/
def PyError.msg : PyError → String
  | .fileNotFound m => m
  | .valueError m => m
  | .permissionError m => m
  | .jsonDecodeError m => m

instance exceptDecEq {ε α : Type} [DecidableEq ε] [DecidableEq α] :
    DecidableEq (Except ε α)
  | .ok a, .ok b =>
    match decEq a b with
    | isTrue h => isTrue (by rw [h])
    | isFalse h => isFalse (fun hh => h (Except.ok.inj hh))
  | .error a, .error b =>
    match decEq a b with
    | isTrue h => isTrue (by rw [h])
    | isFalse h => isFalse (fun hh => h (Except.error.inj hh))
  | .ok _, .error _ => isFalse (fun hh => Except.noConfusion hh)
  | .error _, .ok _ => isFalse (fun hh => Except.noConfusion hh)

/-- A file entry: `some content` is a readable file holding `content`;
`none` is an existing file that `open` cannot read (a permission failure,
for which `path.exists()` is still true). -/
abbrev Entry := Option String

/-- The filesystem: an association list from paths (lists of name
components) to file entries.  Every key denotes a regular file;
directories exist implicitly as proper prefixes of keys. -/
abbrev FileSys := List (List String × Entry)

/-- Look up a path; `none` means the path does not exist. -/
def fsLookup (fs : FileSys) (p : List String) : Option Entry :=
  (fs.find? (fun kv => kv.1 == p)).map Prod.snd

/-- Create or overwrite a file, as `open(path, "w")` plus a write does. -/
def fsSet (fs : FileSys) (p : List String) (e : Entry) : FileSys :=
  if fs.any (fun kv => kv.1 == p) then
    fs.map (fun kv => if kv.1 == p then (p, e) else kv)
  else fs ++ [(p, e)]

/-- Render a component path with the POSIX separator, as `str(Path(...))`
does. -/
def joinPath : List String → String
  | [] => ""
  | [x] => x
  | x :: xs => x ++ "/" ++ joinPath xs

/-- Model of `open(path, "rb")` / `open(path, "r")` on an existing entry:
an unreadable entry raises `PermissionError`. -/
def openRead (entry : Entry) (p : String) : Except PyError String :=
  match entry with
  | none => .error (.permissionError ("[Errno 13] Permission denied: " ++ p))
  | some content => .ok content

/-! ## Checksum records (Python dicts of strings) -/

/-- A checksum record: insertion-ordered string-to-string mapping, the
shallow embedding of the Python dict. -/
abbrev Record := List (String × String)

/-- Membership test, as the expression `k in d` on a dict. -/
def containsKey (m : Record) (k : String) : Bool := m.any (fun kv => kv.1 == k)

/-- Assignment `d[k] = v`: update in place if the key is present (keeping
its position), else append — the dict insertion-order semantics. -/
def dictInsert (m : Record) (k v : String) : Record :=
  if containsKey m k then m.map (fun kv => if kv.1 == k then (k, v) else kv)
  else m ++ [(k, v)]

/-- Subscript `d[k]` guarded by membership, as `cmd_verify` uses it. -/
def dictGet (m : Record) (k : String) : Option String :=
  (m.find? (fun kv => kv.1 == k)).map Prod.snd

/-! ## Hasher (`calculate_checksum`, `__init__.py` lines 17–47) -/

/-- Digest of a byte list under the named algorithm (the pure content of
`hashlib.sha256/md5/sha1`). -/
def hashHexOf (alg : String) (data : List Nat) : String :=
  if alg = "md5" then bytesToHex (md5Bytes data)
  else if alg = "sha1" then bytesToHex (sha1Bytes data)
  else bytesToHex (sha256Bytes data)

/-- An incremental `hashlib` hasher object: the algorithm it was created
for, plus the concatenation of all bytes fed to `update` so far. -/
structure Hasher where
  alg : String
  buf : List Nat
  deriving Repr, DecidableEq

/-- The `hasher.update(chunk)` call. -/
def hashUpdate (h : Hasher) (chunk : List Nat) : Hasher :=
  { h with buf := h.buf ++ chunk }

/-- The `hasher.hexdigest()` call. -/
def hexdigest (h : Hasher) : String := hashHexOf h.alg h.buf

/-- The `if/elif` dispatch of `calculate_checksum` on `algorithm.lower()`:
`sha256`, `md5` and `sha1` construct a hasher, anything else is
unsupported. -/
def newHasher (algorithm : String) : Option Hasher :=
  if strLower algorithm = "sha256" then some ⟨"sha256", []⟩
  else if strLower algorithm = "md5" then some ⟨"md5", []⟩
  else if strLower algorithm = "sha1" then some ⟨"sha1", []⟩
  else none

/-- Embedding of `calculate_checksum(path, algorithm)`: existence check
first (`FileNotFoundError`), then algorithm dispatch (`ValueError`), then
the 8192-byte chunked read loop feeding the hasher. -/
def calculate_checksum (fs : FileSys) (path : List String)
    (algorithm : String) : Except PyError String :=
  match fsLookup fs path with
  | none => .error (.fileNotFound ("File not found: " ++ joinPath path))
  | some entry =>
    match newHasher algorithm with
    | none => .error (.valueError ("Unsupported algorithm: " ++ algorithm))
    | some h =>
      match openRead entry (joinPath path) with
      | .error e => .error e
      | .ok data =>
        .ok (hexdigest ((chunksOf 8192 (utf8Encode data.data)).foldl
              hashUpdate h))

/-! ## Verifier (`verify_checksum`, `__init__.py` lines 50–64) -/

/-- The exception classes named by `except (FileNotFoundError, ValueError)`
in `verify_checksum`.  `jsonDecodeError` is included because the Python
class `JSONDecodeError` is a `ValueError`; `PermissionError` is in
neither class. -/
def caughtByVerify : PyError → Bool
  | .fileNotFound _ => true
  | .valueError _ => true
  | .jsonDecodeError _ => true
  | .permissionError _ => false

/-- Embedding of `verify_checksum(path, expected_checksum)`.  The expected
value is an `Option String` because the CLI can pass `None` through
`args.checksum`; the comparison `actual == expected_checksum` is then
`False` in Python, never an error. -/
def verify_checksum (fs : FileSys) (path : List String)
    (expected_checksum : Option String) : Except PyError Bool :=
  match calculate_checksum fs path "sha256" with
  | .ok actual => .ok (some actual == expected_checksum)
  | .error e => if caughtByVerify e then .ok false else .error e

/-! ## The store document (`json.dump(…, indent=2)` and `json.load`) -/

/-- Four lowercase hex digits, as the `\uXXXX` escapes of `json.dump`. -/
def hex4Chars (n : Nat) : List Char :=
  [hexDig (n / 4096 % 16), hexDig (n / 256 % 16),
   hexDig (n / 16 % 16), hexDig (n % 16)]

/-- Per-character JSON string escaping with `ensure_ascii=True` (the
`json.dump` default): backslash, quote and the named control escapes
first, printable ASCII verbatim, everything else as `\uXXXX`, using a
surrogate pair for characters beyond the basic multilingual plane. -/
def escChars (c : Char) : List Char :=
  if c = '\\' then ['\\', '\\']
  else if c = '"' then ['\\', '"']
  else if c = '\n' then ['\\', 'n']
  else if c = '\t' then ['\\', 't']
  else if c = '\r' then ['\\', 'r']
  else if c.toNat = 8 then ['\\', 'b']
  else if c.toNat = 12 then ['\\', 'f']
  else if 0x20 ≤ c.toNat ∧ c.toNat ≤ 0x7e then [c]
  else if c.toNat < 0x10000 then '\\' :: 'u' :: hex4Chars c.toNat
  else
    ('\\' :: 'u' :: hex4Chars (0xd800 + (c.toNat - 0x10000) / 1024)) ++
    ('\\' :: 'u' :: hex4Chars (0xdc00 + (c.toNat - 0x10000) % 1024))

/-- A JSON string literal for `s`. -/
def encStr (s : String) : List Char := '"' :: s.data.flatMap escChars ++ ['"']

/-- Serialization of the entries after the first one: each is preceded by
the item separator `,` and the newline-plus-two-space indentation, and the
document closes with a newline and the brace. -/
def entriesChars : Record → List Char
  | [] => ['\n', '}']
  | (k, v) :: t =>
    ',' :: '\n' :: ' ' :: ' ' ::
      (encStr k ++ (':' :: ' ' :: (encStr v ++ entriesChars t)))

/-- The exact character stream `json.dump(m, f, indent=2)` writes. -/
def dumpsChars (m : Record) : List Char :=
  match m with
  | [] => ['{', '}']
  | (k, v) :: t =>
    '{' :: '\n' :: ' ' :: ' ' ::
      (encStr k ++ (':' :: ' ' :: (encStr v ++ entriesChars t)))

/-- The document as a string, as also printed by `cmd_scan` without
`--output` (`json.dumps(checksums, indent=2)`). -/
def json_dumps (m : Record) : String := String.mk (dumpsChars m)

/-- JSON whitespace accepted between tokens. -/
def isJsonWs (c : Char) : Bool := c = ' ' ∨ c = '\t' ∨ c = '\n' ∨ c = '\r'

/-- Skip insignificant whitespace. -/
def skipWs (l : List Char) : List Char := l.dropWhile isJsonWs

/-- Value of one hex digit (both cases accepted, as by `json.load`). -/
def hexVal (c : Char) : Option Nat :=
  if 48 ≤ c.toNat ∧ c.toNat ≤ 57 then some (c.toNat - 48)
  else if 97 ≤ c.toNat ∧ c.toNat ≤ 102 then some (c.toNat - 87)
  else if 65 ≤ c.toNat ∧ c.toNat ≤ 70 then some (c.toNat - 55)
  else none

/-- Value of a four-digit hex escape. -/
def hex4 (a b c d : Char) : Option Nat :=
  match hexVal a, hexVal b, hexVal c, hexVal d with
  | some va, some vb, some vc, some vd =>
    some (va * 4096 + vb * 256 + vc * 16 + vd)
  | _, _, _, _ => none

/-- The single-character escapes of JSON. -/
def escCharOf (e : Char) : Option Char :=
  if e = '"' then some '"'
  else if e = '\\' then some '\\'
  else if e = '/' then some '/'
  else if e = 'b' then some (Char.ofNat 8)
  else if e = 'f' then some (Char.ofNat 12)
  else if e = 'n' then some '\n'
  else if e = 'r' then some '\r'
  else if e = 't' then some '\t'
  else none

/-- Prepend a decoded character to a string-body parse result. -/
def consMap (c : Char) (o : Option (List Char × List Char)) :
    Option (List Char × List Char) :=
  o.map (fun sr => (c :: sr.1, sr.2))

/-- Decode the low-surrogate half of a `\uXXXX\uXXXX` surrogate pair,
given the value `n` of the high half. -/
def decodeLowSurrogate (n : Nat) : List Char → Option (Char × List Char)
  | bs :: u2 :: a2 :: b2 :: c3 :: d2 :: rest4 =>
    if bs = '\\' ∧ u2 = 'u' then
      (hex4 a2 b2 c3 d2).bind (fun m =>
        if 0xdc00 ≤ m ∧ m < 0xe000 then
          some (Char.ofNat (0x10000 + (n - 0xd800) * 1024 + (m - 0xdc00)), rest4)
        else none)
    else none
  | _ => none

/-- Decode a `\uXXXX` escape (positioned after the `\u`).  A high
surrogate must be followed by a low surrogate; a lone surrogate is
rejected (it would decode to a Python string no Lean `String` can
represent, and never occurs in a document this package wrote). -/
def decodeUEscape (l : List Char) : Option (Char × List Char) :=
  match l with
  | a :: b :: c2 :: d :: rest3 =>
    (hex4 a b c2 d).bind (fun n =>
      if 0xd800 ≤ n ∧ n < 0xdc00 then decodeLowSurrogate n rest3
      else if 0xdc00 ≤ n ∧ n < 0xe000 then none
      else some (Char.ofNat n, rest3))
  | _ => none

/-- Decode one escape sequence (positioned after the backslash). -/
def decodeEscape : List Char → Option (Char × List Char)
  | [] => none
  | e :: rest2 =>
    if e = 'u' then decodeUEscape rest2
    else
      match escCharOf e with
      | some ec => some (ec, rest2)
      | none => none

/-- Parse the body of a JSON string literal (after the opening quote) up
to and including the closing quote, returning the decoded characters and
the remaining input.  Mirrors the strict `json.load` scanner: raw control
characters are rejected and escapes are decoded.  One unit of fuel is
spent per decoded character, so any fuel beyond the input length is
enough. -/
def parseStringBody : Nat → List Char → Option (List Char × List Char)
  | 0, _ => none
  | fuel + 1, l =>
    match l with
    | [] => none
    | c :: rest =>
      if c = '"' then some ([], rest)
      else if c = '\\' then
        (decodeEscape rest).bind
          (fun dr => consMap dr.1 (parseStringBody fuel dr.2))
      else if c.toNat < 0x20 then none
      else consMap c (parseStringBody fuel rest)

/-- Parse a JSON string literal. -/
def parseString (l : List Char) : Option (String × List Char) :=
  match l with
  | '"' :: r => (parseStringBody (r.length + 1) r).map (fun sr => (String.mk sr.1, sr.2))
  | _ => none

/-- Parse the members of a JSON object, positioned at the first key, up to
and including the closing brace, returning the key/value pairs in
document order.  The fuel only bounds the number of members; `json_loads`
supplies more fuel than the input could ever need. -/
def parseMembersAux : Nat → List Char → Option (List (String × String) × List Char)
  | 0, _ => none
  | fuel + 1, l =>
    (parseString l).bind (fun kr =>
      match skipWs kr.2 with
      | [] => none
      | c2 :: r2 =>
        if c2 = ':' then
          (parseString (skipWs r2)).bind (fun vr =>
            match skipWs vr.2 with
            | [] => none
            | c4 :: r4 =>
              if c4 = ',' then
                (parseMembersAux fuel (skipWs r4)).bind (fun mr =>
                  some ((kr.1, vr.1) :: mr.1, mr.2))
              else if c4 = '}' then some ([(kr.1, vr.1)], r4)
              else none)
        else none)

/-- Model of `json.load` for the documents this package reads: a single
object with string keys and string values, no trailing garbage.  The
result is built by dict insertion, so a duplicated key keeps the last
occurrence, as in Python.  Documents denoting anything other than such an
object are reported as decode failures; real `json.load` accepts some of
those (for example a bare number) and the caller then fails on the
non-dict value — either way an error the CLI does not catch. -/
def json_loads (l : List Char) : Option Record :=
  match skipWs l with
  | [] => none
  | c :: r =>
    if c = '{' then
      let r1 := skipWs r
      ((match r1 with
        | [] => none
        | c1 :: r2 =>
          if c1 = '}' then some (([] : List (String × String)), r2)
          else parseMembersAux (r1.length + 1) r1 :
        Option (List (String × String) × List Char))).bind
        (fun pr =>
          if (skipWs pr.2).isEmpty then
            some (pr.1.foldl (fun acc kv => dictInsert acc kv.1 kv.2) [])
          else none)
    else none

/-- Embedding of `save_checksums(checksums, filepath)`: create or
overwrite `filepath` with the pretty-printed document.  (Write failures —
permissions, missing parent — are outside this filesystem model; every
write succeeds.) -/
def save_checksums (fs : FileSys) (checksums : Record)
    (filepath : List String) : FileSys :=
  fsSet fs filepath (some (json_dumps checksums))

/-- Embedding of `load_checksums(filepath)`: `open` raises
`FileNotFoundError` on a missing path (with the OS message, unlike the
message `calculate_checksum` formats), `PermissionError` on an unreadable
one, and `json.load` raises `JSONDecodeError` on unparsable content. -/
def load_checksums (fs : FileSys) (filepath : List String) :
    Except PyError Record :=
  match fsLookup fs filepath with
  | none =>
    .error (.fileNotFound
      ("[Errno 2] No such file or directory: " ++ joinPath filepath))
  | some entry =>
    match openRead entry (joinPath filepath) with
    | .error e => .error e
    | .ok content =>
      match json_loads content.data with
      | some r => .ok r
      | none => .error (.jsonDecodeError "Expecting value: line 1 column 1 (char 0)")

/-! ## Scanner (`scan_directory`, `__init__.py` lines 94–120) -/

/-- The module-level format list. -/
def SUPPORTED_FORMATS : List String := [".h5", ".pt", ".onnx"]

/-- Whether a path relative to the scanned directory is produced by
`directory.glob(f"{pattern}{ext}")`: the last component must match
`*{ext}` (that is, end with `ext`; `pathlib` glob does not exempt hidden
files), and with the non-recursive pattern `*{ext}` the file must be a
direct child.  Extensions containing glob metacharacters are not
modelled; the format set and the claims use plain suffixes. -/
def globRel (recursive : Bool) (ext : String) (rel : List String) : Bool :=
  !rel.isEmpty && strEndsWith (rel.getLastD "") ext
    && (recursive || rel.length == 1)

/-- Enumeration of the files `directory.glob(f"{pattern}{ext}")` yields
that pass the `is_file()` test, already relativized to `directory` (the
loop applies `relative_to` to each).  In this model every filesystem key
is a regular file, so `is_file()` only excludes paths not in the map. -/
def glob (fs : FileSys) (directory : List String) (recursive : Bool)
    (ext : String) : List (List String) :=
  fs.filterMap (fun kv =>
    if directory.isPrefixOf kv.1 then
      let rel := kv.1.drop directory.length
      if globRel recursive ext rel then some rel else none
    else none)

/-- Body of the inner loop of `scan_directory`: hash one globbed file and
record the digest under its relative path, or propagate the exception. -/
def scanStep (fs : FileSys) (directory : List String) (acc : Record)
    (rel : List String) : Except PyError Record :=
  match calculate_checksum fs (directory ++ rel) "sha256" with
  | .ok d => .ok (dictInsert acc (joinPath rel) d)
  | .error e => .error e

/-- Embedding of `scan_directory(directory, formats, recursive)`: for each
extension, for each globbed file, store the digest of the file under its
relative path; an error from `calculate_checksum` propagates and aborts
the whole scan. -/
def scan_directory (fs : FileSys) (directory : List String)
    (formats : Option (List String)) (recursive : Bool) :
    Except PyError Record :=
  let fmts := formats.getD SUPPORTED_FORMATS
  fmts.foldlM
    (fun acc ext =>
      (glob fs directory recursive ext).foldlM (scanStep fs directory) acc)
    ([] : Record)

/-- Relative paths the scan iterates over, in iteration order (outer loop
over the formats, inner loop over the glob results). -/
def matchedRels (fs : FileSys) (directory : List String)
    (formats : List String) (recursive : Bool) : List (List String) :=
  formats.flatMap (fun ext => glob fs directory recursive ext)

/-- Digest a successful `calculate_checksum` returns (placeholder string
when it fails; only used under a success hypothesis). -/
def digestOf (fs : FileSys) (path : List String) : String :=
  match calculate_checksum fs path "sha256" with
  | .ok d => d
  | .error _ => ""

/-! ## `get_supported_formats` and list aliasing (`__init__.py` lines 9–14)

To state the frame property of `SUPPORTED_FORMATS.copy()` we give Python
list objects an explicit heap: addresses map to list contents, the module
list lives at address 0, and `list.copy()` allocates a fresh address. -/

/-- Heap of Python list objects: contents by address, plus the next fresh
address.  Address 0 holds the module-level `SUPPORTED_FORMATS`. -/
structure PyHeap where
  lists : Nat → List String
  next : Nat

/-- Address of the module-level `SUPPORTED_FORMATS` list object. -/
def formatsAddr : Nat := 0

/-- The heap right after the module is imported. -/
def initHeap : PyHeap :=
  ⟨fun a => if a = 0 then SUPPORTED_FORMATS else [], 1⟩

/-- Embedding of `get_supported_formats()`: allocate a fresh list object
holding a copy of the module list, and return its address. -/
def get_supported_formats (h : PyHeap) : Nat × PyHeap :=
  (h.next,
   ⟨fun a => if a = h.next then h.lists formatsAddr else h.lists a,
    h.next + 1⟩)

/-- In-place mutation of the list object at `addr` (any combination of
`append`, `clear`, index assignment — the contents become `v`). -/
def heapWrite (h : PyHeap) (addr : Nat) (v : List String) : PyHeap :=
  ⟨fun a => if a = addr then v else h.lists a, h.next⟩

/-- Contents of the list object at `addr`. -/
def readList (h : PyHeap) (addr : Nat) : List String := h.lists addr

/-- A `scan_directory(dir)` call with `formats=None` under heap `h`: the
default filter is read from the module list object. -/
def scan_directory_default (h : PyHeap) (fs : FileSys)
    (directory : List String) (recursive : Bool) : Except PyError Record :=
  scan_directory fs directory (some (readList h formatsAddr)) recursive

/-! ## The CLI shell (`cli.py`) -/

/-- Python truthiness of an optional string argument (`None` and the empty
string are falsy). -/
def truthyS (o : Option String) : Bool := !(o.getD "").data.isEmpty

/-- Python truthiness of an optional path argument; the empty path is the
empty component list. -/
def truthyP (o : Option (List String)) : Bool := !(o.getD []).isEmpty

/-- Outcome of a CLI handler: the filesystem after any writes, the return
code, the stdout lines and the stderr lines.  A handler that lets an
exception escape instead produces `Except.error` — an unstructured crash
of the process. -/
abbrev CliOut := FileSys × Nat × List String × List String

/-- Embedding of `cmd_calculate(args)`: the `try` block covers the whole
body, but only `FileNotFoundError` is caught. -/
def cmd_calculate (fs : FileSys) (model : List String)
    (output : Option (List String)) : Except PyError CliOut :=
  match calculate_checksum fs model "sha256" with
  | .ok checksum =>
    match output with
    | some outp =>
      .ok (save_checksums fs [(joinPath model, checksum)] outp, 0,
           ["Checksum saved to " ++ joinPath outp], [])
    | none => .ok (fs, 0, [checksum], [])
  | .error e =>
    match e with
    | .fileNotFound m => .ok (fs, 1, [], ["Error: " ++ m])
    | _ => .error e

/-- Shared tail of `cmd_verify`: the final `verify_checksum` call and the
success and mismatch messages. -/
def cmdVerifyTail (fs : FileSys) (model : List String)
    (expected : Option String) : Except PyError (Nat × List String × List String) :=
  match verify_checksum fs model expected with
  | .ok true => .ok (0, ["✓ Checksum verified successfully"], [])
  | .ok false => .ok (1, [], ["✗ Checksum mismatch!"])
  | .error e => .error e

/-- Embedding of `cmd_verify(args)`: with a truthy `--checksum-file`, load
the record (catching only `FileNotFoundError`) and look the model up;
otherwise use `--checksum` as the expected value (possibly `None`).
Python renders the model name inside single quotes in the not-found
message; the quotes are elided here. -/
def cmd_verify (fs : FileSys) (model : List String)
    (checksum : Option String) (checksum_file : Option (List String)) :
    Except PyError (Nat × List String × List String) :=
  if truthyP checksum_file then
    match load_checksums fs (checksum_file.getD []) with
    | .ok checksums =>
      match dictGet checksums (joinPath model) with
      | some expected => cmdVerifyTail fs model (some expected)
      | none =>
        .ok (1, [],
          ["Error: Model " ++ joinPath model ++ " not found in checksum file"])
    | .error e =>
      match e with
      | .fileNotFound m => .ok (1, [], ["Error: " ++ m])
      | _ => .error e
  else cmdVerifyTail fs model checksum

/-- Embedding of `cmd_scan(args)`: no `try` anywhere — any error from the
scan propagates out of the handler. -/
def cmd_scan (fs : FileSys) (directory : List String)
    (formats : Option String) (no_recursive : Bool)
    (output : Option (List String)) : Except PyError CliOut :=
  let fmts :=
    if truthyS formats then some (pySplit ',' (formats.getD "")) else none
  match scan_directory fs directory fmts (!no_recursive) with
  | .error e => .error e
  | .ok checksums =>
    match output with
    | some outp =>
      .ok (save_checksums fs checksums outp, 0,
           ["Found " ++ toString checksums.length
              ++ " model file(s). Checksums saved to " ++ joinPath outp], [])
    | none => .ok (fs, 0, [json_dumps checksums], [])

/-- Parsed argparse result for the four sub-commands. -/
inductive CliArgs where
  | calculate (model : List String) (output : Option (List String))
  | verify (model : List String) (checksum : Option String)
      (checksum_file : Option (List String))
  | scan (directory : List String) (formats : Option String)
      (no_recursive : Bool) (output : Option (List String))
  | formats

/-- Embedding of `main(args)` after argument parsing: `None` means no
sub-command (help text on stdout, return 1); the `verify` dispatch first
enforces that at least one of the two checksum flags is truthy. -/
def main (fs : FileSys) (args : Option CliArgs) : Except PyError CliOut :=
  match args with
  | none => .ok (fs, 1, ["<argparse help text>"], [])
  | some (.calculate m o) => cmd_calculate fs m o
  | some (.verify m c cf) =>
    if !truthyS c && !truthyP cf then
      .ok (fs, 1, [], ["Error: Either --checksum or --checksum-file required"])
    else
      match cmd_verify fs m c cf with
      | .ok (code, out, err) => .ok (fs, code, out, err)
      | .error e => .error e
  | some (.scan d f nr o) => cmd_scan fs d f nr o
  | some .formats => .ok (fs, 0, SUPPORTED_FORMATS, [])

/-! ## Test fixtures used by the witnesses and counterexamples -/

/-- C10 witness filesystem. -/
def fsC10 : FileSys := [(["m.h5"], some "x")]

/-- C8 witness filesystems: two distinct files, in distinct filesystems,
with identical byte content. -/
def fsC8a : FileSys := [(["models", "a.h5"], some "test content")]

/-- Second C8 witness filesystem. -/
def fsC8b : FileSys :=
  [(["other.txt"], some "zzz"), (["b.pt"], some "test content")]

/-- C1 counterexample filesystem: one existing but unreadable file. -/
def fsLocked : FileSys := [(["locked.h5"], none)]

/-- C4 witness filesystem: two matching files at the top level, one
matching file in a subdirectory, one non-matching file. -/
def fsC4 : FileSys :=
  [(["model.h5"], some "fake model"),
   (["model2.pt"], some "fake model 2"),
   (["notes.txt"], some "not a model"),
   (["sub", "deep.onnx"], some "nested model")]

/-- C5 witness filesystem: one readable and one unreadable matched file. -/
def fsC5 : FileSys := [(["ok.h5"], some "x"), (["locked.pt"], none)]

/-- C6 witness filesystem: a matching file inside a subdirectory plus a
matching direct child. -/
def fsC6 : FileSys :=
  [(["top.h5"], some "a"), (["sub", "m.h5"], some "b")]

/-- C7 counterexample filesystem: an empty model file plus a checksum file
recording its correct digest. -/
def fsC7 : FileSys :=
  [(["m.h5"], some ""),
   (["sums.json"], some (json_dumps
     [("m.h5",
       "e3b0c44298fc1c149afbf4c8996fb92427ae41e4649b934ca495991b7852b855")]))]

/-- C2 counterexample filesystem: an existing model and a corrupt checksum
file. -/
def fsC2 : FileSys := [(["model.h5"], some "x"), (["bad.json"], some "oops")]

/-! ## Basic lemmas about the Hasher -/

theorem foldl_hashUpdate (chunks : List (List Nat)) (h : Hasher) :
    chunks.foldl hashUpdate h = ⟨h.alg, h.buf ++ chunks.flatten⟩ := by
  induction chunks generalizing h with
  | nil => simp [List.flatten]
  | cons c t ih => simp [hashUpdate, ih, List.flatten_cons]

theorem chunksOfGo_flatten {α : Type} (n : Nat) (hn : 0 < n) :
    ∀ (fuel : Nat) (l : List α), l.length ≤ fuel →
      (chunksOfGo n fuel l).flatten = l := by
  intro fuel
  induction fuel with
  | zero =>
    intro l hl
    have : l = [] := List.length_eq_zero.mp (Nat.le_zero.mp hl)
    subst this
    rfl
  | succ f ih =>
    intro l hl
    cases l with
    | nil => rfl
    | cons a t =>
      have hdrop : ((a :: t).drop n).length ≤ f := by
        simp only [List.length_drop, List.length_cons]
        simp only [List.length_cons] at hl
        omega
      have hstep : chunksOfGo n (f + 1) (a :: t) =
          (a :: t).take n :: chunksOfGo n f ((a :: t).drop n) := rfl
      rw [hstep, List.flatten_cons, ih _ hdrop, List.take_append_drop]

theorem chunksOf_flatten {α : Type} (n : Nat) (hn : 0 < n) :
    ∀ l : List α, (chunksOf n l).flatten = l := by
  intro l
  unfold chunksOf
  rw [if_neg (by omega)]
  exact chunksOfGo_flatten n hn l.length l le_rfl

/-- Reading an existing readable file computes the digest of its bytes:
the chunked update loop is equivalent to hashing the whole content. -/
theorem calculate_checksum_content (fs : FileSys) (p : List String)
    (c : String) (h : fsLookup fs p = some (some c)) :
    calculate_checksum fs p "sha256" =
      .ok (hashHexOf "sha256" (utf8Encode c.data)) := by
  unfold calculate_checksum
  rw [h]
  have hnew : newHasher "sha256" = some ⟨"sha256", []⟩ := by decide

  rw [hnew]
  simp only [openRead]
  rw [foldl_hashUpdate, chunksOf_flatten 8192 (by omega)]
  simp [hexdigest]

/-- C10: in `calculate_checksum` the existence check precedes the
algorithm check — a nonexistent path yields `FileNotFoundError` whatever
the algorithm argument is, and an `Unsupported algorithm` `ValueError`
can only arise for a path that exists. -/
theorem calculate_existence_check_first (fs : FileSys) (path : List String)
    (algorithm : String) :
    (fsLookup fs path = none →
      calculate_checksum fs path algorithm =
        .error (.fileNotFound ("File not found: " ++ joinPath path))) ∧
    (∀ m, calculate_checksum fs path algorithm = .error (.valueError m) →
      fsLookup fs path ≠ none) := by
  constructor
  · intro h
    unfold calculate_checksum
    rw [h]
  · intro m hm hnone
    unfold calculate_checksum at hm
    rw [hnone] at hm
    exact PyError.noConfusion (Except.error.inj hm)

theorem calculate_existence_check_first_witness :
    (fsLookup fsC10 ["gone.h5"] = none →
      calculate_checksum fsC10 ["gone.h5"] "not-an-algorithm" =
        .error (.fileNotFound ("File not found: " ++ joinPath ["gone.h5"]))) ∧
    (∀ m, calculate_checksum fsC10 ["gone.h5"] "not-an-algorithm" =
        .error (.valueError m) → fsLookup fsC10 ["gone.h5"] ≠ none) :=
  calculate_existence_check_first fsC10 ["gone.h5"] "not-an-algorithm"

/-- C8: `calculate_checksum` is deterministic in the byte content — it is
a pure function of the bytes (and algorithm), so repeated calls agree by
reflexivity, and two paths holding identical bytes (even in different
filesystem states) yield the identical digest string. -/
theorem calculate_checksum_deterministic (fs1 fs2 : FileSys)
    (p1 p2 : List String) (content : String)
    (h1 : fsLookup fs1 p1 = some (some content))
    (h2 : fsLookup fs2 p2 = some (some content)) :
    calculate_checksum fs1 p1 "sha256" = calculate_checksum fs2 p2 "sha256" ∧
    calculate_checksum fs1 p1 "sha256" =
      .ok (hashHexOf "sha256" (utf8Encode content.data)) := by
  have e1 := calculate_checksum_content fs1 p1 content h1
  have e2 := calculate_checksum_content fs2 p2 content h2
  exact ⟨e1.trans e2.symm, e1⟩

theorem calculate_checksum_deterministic_witness :
    calculate_checksum fsC8a ["models", "a.h5"] "sha256" =
      calculate_checksum fsC8b ["b.pt"] "sha256" ∧
    calculate_checksum fsC8a ["models", "a.h5"] "sha256" =
      .ok (hashHexOf "sha256" (utf8Encode "test content".data)) :=
  calculate_checksum_deterministic fsC8a fsC8b ["models", "a.h5"] ["b.pt"]
    "test content" rfl rfl

/-- C1 counterexample: the claim says `verify_checksum` returns a boolean
for every path and never propagates an error, but on an existing file
that `open` cannot read the `PermissionError` raised inside
`calculate_checksum` is not in the `except (FileNotFoundError,
ValueError)` clause and propagates to the caller. -/
theorem verify_checksum_raises_counterexample :
    verify_checksum fsLocked ["locked.h5"] (some "abc") =
      .error (.permissionError "[Errno 13] Permission denied: locked.h5") := by
  decide

/-- C1 (amended): for every path that is not an existing-but-unreadable
file, `verify_checksum` returns a boolean and never propagates an error —
the file-missing and bad-algorithm failures of the Hasher are caught
internally and converted to `false`; in particular a nonexistent path
returns `false`.  (An existing unreadable file instead propagates
`PermissionError`, see the counterexample.) -/
theorem verify_checksum_never_raises (fs : FileSys) (path : List String)
    (expected : String) (h : fsLookup fs path ≠ some none) :
    (∃ b, verify_checksum fs path (some expected) = .ok b) ∧
    (fsLookup fs path = none →
      verify_checksum fs path (some expected) = .ok false) := by
  match hl : fsLookup fs path with
  | none =>
    have hcalc : calculate_checksum fs path "sha256" =
        .error (.fileNotFound ("File not found: " ++ joinPath path)) := by
      unfold calculate_checksum
      rw [hl]
    constructor
    · refine ⟨false, ?_⟩
      unfold verify_checksum
      rw [hcalc]
      rfl
    · intro _
      unfold verify_checksum
      rw [hcalc]
      rfl
  | some none => exact absurd hl h
  | some (some c) =>
    have hcalc := calculate_checksum_content fs path c hl
    refine ⟨⟨some (hashHexOf "sha256" (utf8Encode c.data)) == some expected, ?_⟩, ?_⟩
    · unfold verify_checksum
      rw [hcalc]
    · intro hnone
      exact Option.noConfusion hnone

/-! ## Round trip of the store document -/

theorem hexVal_hexDig : ∀ k, k < 16 → hexVal (hexDig k) = some k := by
  decide

theorem hex4_hex4Chars (n : Nat) (hn : n < 65536) :
    hex4 (hexDig (n / 4096 % 16)) (hexDig (n / 256 % 16))
      (hexDig (n / 16 % 16)) (hexDig (n % 16)) = some n := by
  have h1 := hexVal_hexDig (n / 4096 % 16) (Nat.mod_lt _ (by omega))
  have h2 := hexVal_hexDig (n / 256 % 16) (Nat.mod_lt _ (by omega))
  have h3 := hexVal_hexDig (n / 16 % 16) (Nat.mod_lt _ (by omega))
  have h4 := hexVal_hexDig (n % 16) (Nat.mod_lt _ (by omega))
  rw [hex4, h1, h2, h3, h4]
  show some (n / 4096 % 16 * 4096 + n / 256 % 16 * 256 + n / 16 % 16 * 16 + n % 16) = some n
  congr 1
  omega

theorem toNat_ofNat_valid (n : Nat) (h : n.isValidChar) :
    (Char.ofNat n).toNat = n := by
  unfold Char.ofNat
  rw [dif_pos h]
  rfl

theorem not_surrogate (c : Char) : ¬(0xd800 ≤ c.toNat ∧ c.toNat < 0xe000) := by
  have h := c.valid
  unfold UInt32.isValidChar Nat.isValidChar at h
  have he : c.toNat = c.val.toNat := rfl
  omega

theorem char_lt (c : Char) : c.toNat < 0x110000 := by
  have h := c.valid
  unfold UInt32.isValidChar Nat.isValidChar at h
  have he : c.toNat = c.val.toNat := rfl
  omega

theorem decodeUEscape_val (n : Nat) (hn : n < 65536)
    (hv : ¬(0xd800 ≤ n ∧ n < 0xe000)) (rest : List Char) :
    decodeUEscape (hex4Chars n ++ rest) = some (Char.ofNat n, rest) := by
  simp only [hex4Chars, List.cons_append, List.nil_append, decodeUEscape]
  rw [hex4_hex4Chars n hn]
  have hs1 : ¬(0xd800 ≤ n ∧ n < 0xdc00) := by omega
  have hs2 : ¬(0xdc00 ≤ n ∧ n < 0xe000) := by omega
  rw [Option.some_bind, if_neg hs1, if_neg hs2]

theorem decodeUEscape_pair (n : Nat) (h1 : 0x10000 ≤ n) (h2 : n < 0x110000)
    (rest : List Char) :
    decodeUEscape (hex4Chars (0xd800 + (n - 0x10000) / 1024) ++
        ('\\' :: 'u' :: (hex4Chars (0xdc00 + (n - 0x10000) % 1024) ++ rest))) =
      some (Char.ofNat n, rest) := by
  have hdiv : (n - 0x10000) / 1024 < 1024 := by omega
  have hmod : (n - 0x10000) % 1024 < 1024 :=
    Nat.mod_lt _ (by omega)
  have hhi : 0xd800 + (n - 0x10000) / 1024 < 65536 := by omega
  have hlo : 0xdc00 + (n - 0x10000) % 1024 < 65536 := by omega
  simp only [hex4Chars, List.cons_append, List.nil_append, decodeUEscape]
  rw [hex4_hex4Chars _ hhi]
  have hs1 : 0xd800 ≤ 0xd800 + (n - 0x10000) / 1024 ∧
      0xd800 + (n - 0x10000) / 1024 < 0xdc00 := by omega
  rw [Option.some_bind, if_pos hs1]
  simp only [decodeLowSurrogate]
  rw [hex4_hex4Chars _ hlo]
  have hs2 : 0xdc00 ≤ 0xdc00 + (n - 0x10000) % 1024 ∧
      0xdc00 + (n - 0x10000) % 1024 < 0xe000 := by omega
  rw [Option.some_bind, if_pos hs2]
  have harg : 0x10000 + (0xd800 + (n - 0x10000) / 1024 - 0xd800) * 1024 +
      (0xdc00 + (n - 0x10000) % 1024 - 0xdc00) = n := by
    have := Nat.div_add_mod (n - 0x10000) 1024
    omega
  rw [harg]
  simp

/-- One decoded character per escape: parsing the encoding of `c` prepends
`c` and spends one unit of fuel. -/
theorem parseStringBody_escChars (c : Char) (rest : List Char) (fuel : Nat) :
    parseStringBody (fuel + 1) (escChars c ++ rest) =
      consMap c (parseStringBody fuel rest) := by
  by_cases h1 : c = '\\'
  · subst h1
    simp [escChars, parseStringBody, decodeEscape, escCharOf]
  by_cases h2 : c = '"'
  · subst h2
    simp [escChars, parseStringBody, decodeEscape, escCharOf]
  by_cases h3 : c = '\n'
  · subst h3
    simp [escChars, parseStringBody, decodeEscape, escCharOf]
  by_cases h4 : c = '\t'
  · subst h4
    simp [escChars, parseStringBody, decodeEscape, escCharOf]
  by_cases h5 : c = '\r'
  · subst h5
    simp [escChars, parseStringBody, decodeEscape, escCharOf]
  by_cases h6 : c.toNat = 8
  · have hc : c = Char.ofNat 8 := by
      rw [← h6, Char.ofNat_toNat]
    subst hc
    simp [escChars, parseStringBody, decodeEscape, escCharOf]
  by_cases h7 : c.toNat = 12
  · have hc : c = Char.ofNat 12 := by
      rw [← h7, Char.ofNat_toNat]
    subst hc
    simp [escChars, parseStringBody, decodeEscape, escCharOf]
  by_cases h8 : 0x20 ≤ c.toNat ∧ c.toNat ≤ 0x7e
  · have e1 : escChars c = [c] := by
      simp [escChars, h1, h2, h3, h4, h5, h6, h7, h8]
    rw [e1]
    have hctl : ¬(c.toNat < 0x20) := by omega
    simp [parseStringBody, h1, h2, hctl]
  by_cases h9 : c.toNat < 0x10000
  · have e1 : escChars c = '\\' :: 'u' :: hex4Chars c.toNat := by
      simp [escChars, h1, h2, h3, h4, h5, h6, h7, h8, h9]
    rw [e1]
    have hdec : decodeEscape ('u' :: (hex4Chars c.toNat ++ rest)) =
        some (Char.ofNat c.toNat, rest) := by
      simp [decodeEscape, decodeUEscape_val c.toNat h9 (not_surrogate c)]
    simp only [List.cons_append, List.append_assoc, List.nil_append]
    simp only [parseStringBody, hdec, Option.some_bind, Char.ofNat_toNat]
    simp [Char.ofNat_toNat]
  · have e1 : escChars c =
        '\\' :: 'u' :: hex4Chars (0xd800 + (c.toNat - 0x10000) / 1024) ++
          ('\\' :: 'u' :: hex4Chars (0xdc00 + (c.toNat - 0x10000) % 1024)) := by
      simp [escChars, h1, h2, h3, h4, h5, h6, h7, h8, h9]
    rw [e1]
    have hdec : decodeEscape
        ('u' :: (hex4Chars (0xd800 + (c.toNat - 0x10000) / 1024) ++
          ('\\' :: 'u' :: (hex4Chars (0xdc00 + (c.toNat - 0x10000) % 1024) ++ rest)))) =
        some (Char.ofNat c.toNat, rest) := by
      simp [decodeEscape,
        decodeUEscape_pair c.toNat (by omega) (char_lt c) rest]
    simp only [List.cons_append, List.append_assoc, List.nil_append]
    simp only [parseStringBody, hdec, Option.some_bind, Char.ofNat_toNat]
    simp [Char.ofNat_toNat]

/-- Parsing the encoded body of a string, up to the closing quote. -/
theorem parseStringBody_enc (cs : List Char) : ∀ (fuel : Nat) (rest : List Char),
    cs.length + 1 ≤ fuel →
    parseStringBody fuel (cs.flatMap escChars ++ '"' :: rest) =
      some (cs, rest) := by
  induction cs with
  | nil =>
    intro fuel rest hf
    match fuel, hf with
    | f + 1, _ => simp [parseStringBody]
  | cons c cs ih =>
    intro fuel rest hf
    match fuel, hf with
    | f + 1, hf =>
      have hstep : (c :: cs).flatMap escChars ++ '"' :: rest =
          escChars c ++ (cs.flatMap escChars ++ '"' :: rest) := by
        simp [List.flatMap_cons, List.append_assoc]
      rw [hstep, parseStringBody_escChars,
        ih f rest (by simpa [Nat.succ_le_succ_iff] using hf)]
      rfl

theorem escChars_length_pos (c : Char) : 1 ≤ (escChars c).length := by
  unfold escChars
  split_ifs <;> simp [hex4Chars]

theorem flatMap_escChars_length (cs : List Char) :
    cs.length ≤ (cs.flatMap escChars).length := by
  induction cs with
  | nil => simp
  | cons c cs ih =>
    simp only [List.flatMap_cons, List.length_append, List.length_cons]
    have := escChars_length_pos c
    omega

/-- Parsing a serialized string literal returns the original string. -/
theorem parseString_enc (s : String) (rest : List Char) :
    parseString (encStr s ++ rest) = some (s, rest) := by
  have hshape : encStr s ++ rest =
      '"' :: (s.data.flatMap escChars ++ '"' :: rest) := by
    simp [encStr, List.append_assoc]
  rw [hshape]
  show (parseStringBody ((s.data.flatMap escChars ++ '"' :: rest).length + 1)
      (s.data.flatMap escChars ++ '"' :: rest)).map
        (fun sr => (String.mk sr.1, sr.2)) = some (s, rest)
  rw [parseStringBody_enc s.data _ rest
    (by
      have := flatMap_escChars_length s.data
      simp only [List.length_append, List.length_cons]
      omega)]
  rfl

theorem isJsonWs_quote : isJsonWs '"' = false := by decide

theorem skipWs_cons (c : Char) (l : List Char) :
    skipWs (c :: l) = if isJsonWs c then skipWs l else c :: l := by
  simp [skipWs, List.dropWhile_cons]

theorem skipWs_not_ws (c : Char) (l : List Char) (h : isJsonWs c = false) :
    skipWs (c :: l) = c :: l := by
  simp [skipWs, List.dropWhile_cons, h]

theorem skipWs_ws (c : Char) (l : List Char) (h : isJsonWs c = true) :
    skipWs (c :: l) = skipWs l := by
  simp [skipWs, List.dropWhile_cons, h]

/-- Whitespace skipping stops at the opening quote of a string literal. -/
theorem skipWs_encStr (s : String) (rest : List Char) :
    skipWs (encStr s ++ rest) = encStr s ++ rest := by
  simp only [encStr, List.cons_append]
  exact skipWs_not_ws _ _ (by decide)

theorem entriesChars_length (t : Record) :
    t.length ≤ (entriesChars t).length := by
  induction t with
  | nil => simp [entriesChars]
  | cons p t ih =>
    obtain ⟨k, v⟩ := p
    simp only [entriesChars, List.length_cons, List.length_append]
    omega

/-- Parsing the serialized members, positioned at the first key: the whole
entry list is recovered and the document is consumed exactly. -/
theorem parseMembersAux_enc (t : Record) : ∀ (k v : String) (fuel : Nat),
    t.length < fuel →
    parseMembersAux fuel
        (encStr k ++ (':' :: ' ' :: (encStr v ++ entriesChars t))) =
      some ((k, v) :: t, []) := by
  have w1 : ∀ l : List Char, skipWs (':' :: l) = ':' :: l :=
    fun l => skipWs_not_ws ':' l (by decide)
  have w2 : ∀ l : List Char, skipWs (' ' :: l) = skipWs l :=
    fun l => skipWs_ws ' ' l (by decide)
  have w3 : ∀ l : List Char, skipWs ('\n' :: l) = skipWs l :=
    fun l => skipWs_ws '\n' l (by decide)
  have w4 : ∀ l : List Char, skipWs (',' :: l) = ',' :: l :=
    fun l => skipWs_not_ws ',' l (by decide)
  have w5 : ∀ l : List Char, skipWs ('}' :: l) = '}' :: l :=
    fun l => skipWs_not_ws '}' l (by decide)
  induction t with
  | nil =>
    intro k v fuel hf
    match fuel, hf with
    | f + 1, _ =>
      simp only [parseMembersAux, parseString_enc, Option.some_bind,
        entriesChars, w1, w2, w3, w4, w5, skipWs_encStr, reduceIte]
      simp
  | cons p t ih =>
    intro k v fuel hf
    obtain ⟨k2, v2⟩ := p
    match fuel, hf with
    | f + 1, hf =>
      have hih := ih k2 v2 f (by simp only [List.length_cons] at hf; omega)
      simp only [parseMembersAux, parseString_enc, Option.some_bind,
        entriesChars, w1, w2, w3, w4, w5, skipWs_encStr, reduceIte, hih]

theorem containsKey_eq_false (m : Record) (k : String)
    (h : k ∉ m.map Prod.fst) : containsKey m k = false := by
  by_contra hc
  have htrue : containsKey m k = true := by
    revert hc
    cases containsKey m k <;> simp
  obtain ⟨kv, hmem, hkv⟩ := List.any_eq_true.mp htrue
  exact h (List.mem_map.mpr ⟨kv, hmem, by simpa [beq_iff_eq] using hkv⟩)

theorem dictInsert_append (m : Record) (k v : String)
    (h : containsKey m k = false) : dictInsert m k v = m ++ [(k, v)] := by
  rw [dictInsert, h]
  simp

/-- Building a dict by repeated insertion of entries with fresh keys
appends them in order. -/
theorem foldl_dictInsert (l : List (String × String)) : ∀ (acc : Record),
    ((acc ++ l).map Prod.fst).Nodup →
    l.foldl (fun a kv => dictInsert a kv.1 kv.2) acc = acc ++ l := by
  induction l with
  | nil => intro acc _; simp
  | cons p l ih =>
    intro acc h
    obtain ⟨k, v⟩ := p
    have hk : k ∉ acc.map Prod.fst := by
      simp only [List.map_append, List.nodup_append] at h
      intro hmem
      exact absurd (by simp : k ∈ ((k, v) :: l).map Prod.fst)
        (h.2.2 hmem)
    rw [List.foldl_cons]
    rw [show dictInsert acc k v = acc ++ [(k, v)] from
      dictInsert_append _ _ _ (containsKey_eq_false _ _ hk)]
    rw [ih (acc ++ [(k, v)])
      (by rw [show (acc ++ [(k, v)]) ++ l = acc ++ ((k, v) :: l) by simp];
          exact h)]
    simp

theorem find?_map_set (p : List String) (e : Entry) :
    ∀ fs : FileSys, fs.any (fun kv => kv.1 == p) = true →
    (fs.map (fun kv => if kv.1 == p then (p, e) else kv)).find?
      (fun kv => kv.1 == p) = some (p, e) := by
  intro fs
  induction fs with
  | nil => intro h; simp at h
  | cons kv fs ih =>
    intro h
    by_cases hk : (kv.1 == p) = true
    · simp only [List.map_cons, hk, if_true]
      exact List.find?_cons_of_pos _ (by simp)
    · have hkf : (kv.1 == p) = false := by
        cases hval : (kv.1 == p) with
        | false => rfl
        | true => exact absurd hval hk
      simp only [List.map_cons, hkf, Bool.false_eq_true, if_false]
      rw [List.find?_cons_of_neg _ (by simp [hkf])]
      apply ih
      simp only [List.any_cons, hkf, Bool.false_or] at h
      exact h

theorem find?_append_new (p : List String) (e : Entry) :
    ∀ fs : FileSys, fs.any (fun kv => kv.1 == p) = false →
    (fs ++ [(p, e)]).find? (fun kv => kv.1 == p) = some (p, e) := by
  intro fs
  induction fs with
  | nil =>
    intro _
    simp only [List.nil_append]
    exact List.find?_cons_of_pos _ (by simp)
  | cons kv fs ih =>
    intro h
    simp only [List.any_cons, Bool.or_eq_false_iff] at h
    rw [List.cons_append, List.find?_cons_of_neg _ (by simp [h.1])]
    exact ih h.2

/-- Writing a file and reading the same path back returns the written
entry. -/
theorem fsLookup_fsSet (fs : FileSys) (p : List String) (e : Entry) :
    fsLookup (fsSet fs p e) p = some e := by
  rw [fsSet]
  by_cases h : fs.any (fun kv => kv.1 == p) = true
  · rw [if_pos h, fsLookup, find?_map_set p e fs h]
    rfl
  · have hf : fs.any (fun kv => kv.1 == p) = false := by
      cases hval : fs.any (fun kv => kv.1 == p) with
      | false => rfl
      | true => exact absurd hval h
    rw [if_neg h, fsLookup, find?_append_new p e fs hf]
    rfl

/-- The document written by `json.dump(…, indent=2)` parses back to the
record it was produced from (keys of a Python dict are unique). -/
theorem json_loads_dumps (R : Record) (h : (R.map Prod.fst).Nodup) :
    json_loads (dumpsChars R) = some R := by
  have w2 : ∀ l : List Char, skipWs (' ' :: l) = skipWs l :=
    fun l => skipWs_ws ' ' l (by decide)
  have w3 : ∀ l : List Char, skipWs ('\n' :: l) = skipWs l :=
    fun l => skipWs_ws '\n' l (by decide)
  have wb : ∀ l : List Char, skipWs ('{' :: l) = '{' :: l :=
    fun l => skipWs_not_ws '{' l (by decide)
  match R with
  | [] => decide
  | (k, v) :: t =>
    have hlen : t.length <
        (encStr k ++ (':' :: ' ' :: (encStr v ++ entriesChars t))).length + 1 := by
      have h1 := entriesChars_length t
      simp only [List.length_append, List.length_cons]
      omega
    have hpm := parseMembersAux_enc t k v _ hlen
    have hfold := foldl_dictInsert ((k, v) :: t) [] (by simpa using h)
    simp only [List.nil_append] at hfold
    simp only [encStr, List.cons_append, List.nil_append,
      List.append_assoc] at hpm
    have hnil : skipWs ([] : List Char) = [] := rfl
    simp only [dumpsChars, json_loads, wb, w2, w3, skipWs_encStr, reduceIte]
    simp only [encStr, List.cons_append, List.nil_append, List.append_assoc,
      reduceIte, hpm, Option.some_bind, hnil, List.isEmpty_nil, if_true,
      hfold]
    rw [if_neg (by decide : (Char.ofNat 34) ≠ Char.ofNat 125)]
    simp only [Option.some_bind, hnil, List.isEmpty_nil, if_true, hfold]

/-- C3: for every record mapping strings to strings (with the distinct
keys every Python dict has by construction) and every destination path,
saving with `save_checksums` and loading the same path with
`load_checksums` returns a record equal to the original. -/
theorem store_round_trip (fs : FileSys) (R : Record) (p : List String)
    (h : (R.map Prod.fst).Nodup) :
    load_checksums (save_checksums fs R p) p = .ok R := by
  unfold save_checksums load_checksums
  rw [fsLookup_fsSet]
  simp only [openRead]
  rw [show (json_dumps R).data = dumpsChars R from rfl, json_loads_dumps R h]

theorem store_round_trip_witness :
    load_checksums
        (save_checksums []
          [("model1.h5", "abc123"), ("model2.pt", "def456")]
          ["checksums.json"])
        ["checksums.json"] =
      .ok [("model1.h5", "abc123"), ("model2.pt", "def456")] :=
  store_round_trip [] [("model1.h5", "abc123"), ("model2.pt", "def456")]
    ["checksums.json"] (by decide)

theorem verify_checksum_never_raises_witness :
    (∃ b, verify_checksum fsC8a ["missing.pt"] (some "abc123") = .ok b) ∧
    (fsLookup fsC8a ["missing.pt"] = none →
      verify_checksum fsC8a ["missing.pt"] (some "abc123") = .ok false) :=
  verify_checksum_never_raises fsC8a ["missing.pt"] "abc123" (by decide)

/-! ## Scanner lemmas -/

theorem exbind_ok {α β : Type} (a : α) (f : α → Except PyError β) :
    ((Except.ok a : Except PyError α) >>= f) = f a := rfl

theorem exbind_error {α β : Type} (e : PyError) (f : α → Except PyError β) :
    ((Except.error e : Except PyError α) >>= f) = .error e := rfl

/-- The nested loops of `scan_directory` traverse exactly the concatenated
glob results, in order. -/
theorem scan_eq_rels (fs : FileSys) (directory : List String)
    (formats : Option (List String)) (recursive : Bool) :
    scan_directory fs directory formats recursive =
      (matchedRels fs directory (formats.getD SUPPORTED_FORMATS)
        recursive).foldlM (scanStep fs directory) [] := by
  rw [scan_directory, matchedRels]
  generalize formats.getD SUPPORTED_FORMATS = fmts
  show List.foldlM _ ([] : Record) fmts = _
  generalize ([] : Record) = acc
  induction fmts generalizing acc with
  | nil => simp
  | cons ext fmts ih =>
    rw [List.flatMap_cons, List.foldlM_append, List.foldlM_cons]
    cases hres : (glob fs directory recursive ext).foldlM
        (scanStep fs directory) acc with
    | ok a => rw [exbind_ok, exbind_ok, ih a]
    | error e => rw [exbind_error, exbind_error]

/-- A scan that returns a record hashed every traversed file
successfully. -/
theorem foldlM_scanStep_ok_all (fs : FileSys) (directory : List String) :
    ∀ (rels : List (List String)) (acc m : Record),
    rels.foldlM (scanStep fs directory) acc = .ok m →
    ∀ rel ∈ rels, ∃ d,
      calculate_checksum fs (directory ++ rel) "sha256" = .ok d := by
  intro rels
  induction rels with
  | nil => intro acc m _ rel hrel; simp at hrel
  | cons r rels ih =>
    intro acc m hfold rel hrel
    rw [List.foldlM_cons] at hfold
    cases hcalc : calculate_checksum fs (directory ++ r) "sha256" with
    | error e =>
      rw [show scanStep fs directory acc r = .error e by
            simp [scanStep, hcalc],
        exbind_error] at hfold
      exact Except.noConfusion hfold
    | ok d =>
      rw [show scanStep fs directory acc r =
            .ok (dictInsert acc (joinPath r) d) by simp [scanStep, hcalc],
        exbind_ok] at hfold
      rcases List.mem_cons.mp hrel with hrel | hrel
      · exact ⟨d, hrel ▸ hcalc⟩
      · exact ih _ m hfold rel hrel

/-- A failing scan fails with the error of one of the traversed files. -/
theorem foldlM_scanStep_error (fs : FileSys) (directory : List String) :
    ∀ (rels : List (List String)) (acc : Record) (e : PyError),
    rels.foldlM (scanStep fs directory) acc = .error e →
    ∃ rel ∈ rels,
      calculate_checksum fs (directory ++ rel) "sha256" = .error e := by
  intro rels
  induction rels with
  | nil =>
    intro acc e hfold
    simp only [List.foldlM_nil, pure, Except.pure] at hfold
    exact Except.noConfusion hfold
  | cons r rels ih =>
    intro acc e hfold
    rw [List.foldlM_cons] at hfold
    cases hcalc : calculate_checksum fs (directory ++ r) "sha256" with
    | error e2 =>
      rw [show scanStep fs directory acc r = .error e2 by
            simp [scanStep, hcalc],
        exbind_error] at hfold
      exact ⟨r, by simp, by rw [hcalc, Except.error.inj hfold]⟩
    | ok d =>
      rw [show scanStep fs directory acc r =
            .ok (dictInsert acc (joinPath r) d) by simp [scanStep, hcalc],
        exbind_ok] at hfold
      obtain ⟨rel, hm, he⟩ := ih _ e hfold
      exact ⟨rel, by simp [hm], he⟩

theorem containsKey_append (a b : Record) (k : String) :
    containsKey (a ++ b) k = (containsKey a k || containsKey b k) := by
  simp [containsKey, List.any_append]

/-- A successful scan over fresh keys appends one entry per file, in
order, holding exactly the digests `calculate_checksum` computes. -/
theorem foldlM_scanStep_of_all_ok (fs : FileSys) (directory : List String) :
    ∀ (rels : List (List String)) (acc : Record),
    (∀ rel ∈ rels, ∃ d,
      calculate_checksum fs (directory ++ rel) "sha256" = .ok d) →
    (∀ rel ∈ rels, containsKey acc (joinPath rel) = false) →
    ((rels.map joinPath).Nodup) →
    rels.foldlM (scanStep fs directory) acc =
      .ok (acc ++ rels.map
        (fun rel => (joinPath rel, digestOf fs (directory ++ rel)))) := by
  intro rels
  induction rels with
  | nil =>
    intro acc _ _ _
    simp only [List.foldlM_nil, List.map_nil, List.append_nil]
    rfl
  | cons r rels ih =>
    intro acc hall hfresh hnd
    have hnd2 : (joinPath r :: rels.map joinPath).Nodup := by
      rw [List.map_cons] at hnd; exact hnd
    have hnd3 := List.nodup_cons.mp hnd2
    obtain ⟨d, hd⟩ := hall r (by simp)
    rw [List.foldlM_cons]
    rw [show scanStep fs directory acc r =
          .ok (acc ++ [(joinPath r, digestOf fs (directory ++ r))]) by
        simp only [scanStep, hd]
        rw [dictInsert_append _ _ _ (hfresh r (by simp))]
        rw [show digestOf fs (directory ++ r) = d by simp [digestOf, hd]],
      exbind_ok]
    rw [ih (acc ++ [(joinPath r, digestOf fs (directory ++ r))])
      (fun rel hrel => hall rel (by simp [hrel]))
      (fun rel hrel => by
        rw [containsKey_append]
        have h1 := hfresh rel (by simp [hrel])
        have h2 : containsKey [(joinPath r, digestOf fs (directory ++ r))]
            (joinPath rel) = false := by
          have hne : joinPath rel ≠ joinPath r := by
            intro heq
            exact hnd3.1 (heq ▸ List.mem_map_of_mem joinPath hrel)
          simp [containsKey, beq_iff_eq]
          exact fun hx => absurd hx.symm hne
        rw [h1, h2]
        rfl)
      hnd3.2]
    simp

/-- Membership in a glob result: the globbed path is a file of the
filesystem under the scanned directory, and its relative path passes the
pattern filter. -/
theorem mem_glob_elim (fs : FileSys) (directory : List String)
    (recursive : Bool) (ext : String) (rel : List String)
    (h : rel ∈ glob fs directory recursive ext) :
    ∃ entry, (directory ++ rel, entry) ∈ fs ∧
      globRel recursive ext rel = true := by
  obtain ⟨kv, hkv, heq⟩ := List.mem_filterMap.mp h
  by_cases hpre : directory.isPrefixOf kv.1
  · rw [if_pos hpre] at heq
    by_cases hg : globRel recursive ext (kv.1.drop directory.length)
    · rw [if_pos hg] at heq
      obtain ⟨t, ht⟩ := List.isPrefixOf_iff_prefix.mp hpre
      have hdrop : kv.1.drop directory.length = t := by
        rw [← ht, List.drop_left]
      have hrel : rel = t := by
        rw [← Option.some.inj heq, hdrop]
      subst hrel
      refine ⟨kv.2, ?_, by rwa [hdrop] at hg⟩
      have : (directory ++ rel, kv.2) = kv := by
        rw [ht]
      rwa [this]
    · rw [if_neg hg] at heq
      exact Option.noConfusion heq
  · rw [if_neg hpre] at heq
    exact Option.noConfusion heq

/-- Membership in a glob result, introduction form. -/
theorem mem_glob_intro (fs : FileSys) (directory : List String)
    (recursive : Bool) (ext : String) (rel : List String) (entry : Entry)
    (hfs : (directory ++ rel, entry) ∈ fs)
    (hg : globRel recursive ext rel = true) :
    rel ∈ glob fs directory recursive ext := by
  apply List.mem_filterMap.mpr
  refine ⟨(directory ++ rel, entry), hfs, ?_⟩
  have hpre : directory.isPrefixOf (directory ++ rel, entry).1 = true :=
    List.isPrefixOf_iff_prefix.mpr (List.prefix_append directory rel)
  rw [if_pos hpre]
  have hdrop : (directory ++ rel, entry).1.drop directory.length = rel :=
    List.drop_left directory rel
  rw [hdrop, if_pos hg]

/-- Every scanned relative path denotes an existing file. -/
theorem matched_lookup (fs : FileSys) (directory : List String)
    (fmts : List String) (recursive : Bool) (rel : List String)
    (h : rel ∈ matchedRels fs directory fmts recursive) :
    ∃ entry, fsLookup fs (directory ++ rel) = some entry := by
  obtain ⟨ext, _, hglob⟩ := List.mem_flatMap.mp h
  obtain ⟨entry, hfs, _⟩ := mem_glob_elim fs directory recursive ext rel hglob
  have hsome : ((fs.find? (fun kv => kv.1 == directory ++ rel)).isSome) := by
    rw [List.find?_isSome]
    exact ⟨(directory ++ rel, entry), hfs, by simp⟩
  obtain ⟨kv, hkv⟩ := Option.isSome_iff_exists.mp hsome
  exact ⟨kv.2, by rw [fsLookup, hkv]; rfl⟩

/-- On a path that exists, `calculate_checksum` with the default algorithm
can only fail with a `PermissionError` from `open`. -/
theorem calc_error_is_permission (fs : FileSys) (p : List String)
    (entry : Entry) (e : PyError)
    (hlook : fsLookup fs p = some entry)
    (herr : calculate_checksum fs p "sha256" = .error e) :
    ∃ msg, e = .permissionError msg := by
  unfold calculate_checksum at herr
  rw [hlook, show newHasher "sha256" = some ⟨"sha256", []⟩ by decide] at herr
  match entry, herr with
  | none, herr =>
    exact ⟨_, (Except.error.inj herr).symm⟩

theorem mem_dictInsert (m : Record) (k v : String) (kv : String × String)
    (h : kv ∈ dictInsert m k v) : kv ∈ m ∨ kv.1 = k := by
  rw [dictInsert] at h
  by_cases hc : containsKey m k = true
  · rw [if_pos hc] at h
    obtain ⟨kv0, hkv0, heq⟩ := List.mem_map.mp h
    by_cases hk : (kv0.1 == k) = true
    · rw [if_pos hk] at heq
      right
      rw [← heq]
    · rw [if_neg hk] at heq
      left
      rw [← heq]
      exact hkv0
  · rw [if_neg hc] at h
    rcases List.mem_append.mp h with h | h
    · exact Or.inl h
    · right
      rw [show kv = (k, v) by simpa using h]

/-- Every key of a record a scan produced is the relative path of one of
the traversed files. -/
theorem foldlM_scanStep_keys (fs : FileSys) (directory : List String) :
    ∀ (rels : List (List String)) (acc m : Record),
    rels.foldlM (scanStep fs directory) acc = .ok m →
    ∀ kv ∈ m, kv ∈ acc ∨ ∃ rel ∈ rels, kv.1 = joinPath rel := by
  intro rels
  induction rels with
  | nil =>
    intro acc m hfold kv hkv
    simp only [List.foldlM_nil] at hfold
    left
    rw [show acc = m from Except.ok.inj hfold]
    exact hkv
  | cons r rels ih =>
    intro acc m hfold kv hkv
    rw [List.foldlM_cons] at hfold
    cases hcalc : calculate_checksum fs (directory ++ r) "sha256" with
    | error e =>
      rw [show scanStep fs directory acc r = .error e by
            simp [scanStep, hcalc],
        exbind_error] at hfold
      exact Except.noConfusion hfold
    | ok d =>
      rw [show scanStep fs directory acc r =
            .ok (dictInsert acc (joinPath r) d) by simp [scanStep, hcalc],
        exbind_ok] at hfold
      rcases ih _ m hfold kv hkv with hin | ⟨rel, hm, hk⟩
      · rcases mem_dictInsert acc (joinPath r) d kv hin with hin | hk
        · exact Or.inl hin
        · exact Or.inr ⟨r, by simp, hk⟩
      · exact Or.inr ⟨rel, by simp [hm], hk⟩

/-- The non-recursive glob pattern only matches direct children. -/
theorem mem_matchedRels_length_one (fs : FileSys) (directory : List String)
    (fmts : List String) (rel : List String)
    (h : rel ∈ matchedRels fs directory fmts false) : rel.length = 1 := by
  obtain ⟨ext, _, hglob⟩ := List.mem_flatMap.mp h
  obtain ⟨entry, _, hg⟩ := mem_glob_elim fs directory false ext rel hglob
  simp only [globRel, Bool.false_or, Bool.and_eq_true, beq_iff_eq] at hg
  exact hg.2

theorem joinPath_deep_slash (a b : String) (t : List String) :
    '/' ∈ (joinPath (a :: b :: t)).data := by
  show '/' ∈ (a ++ "/" ++ joinPath (b :: t)).data
  simp [String.data_append]

/-- C4: over the default format set, a recursive scan of a directory whose
matched files are all readable returns a record with exactly one entry per
matched file, in iteration order — each key the path relative to the
directory, each value the digest `calculate_checksum` computes for the
file with the default algorithm.  (The distinct-keys hypothesis is the
real-filesystem fact that distinct files have distinct relative paths.) -/
theorem scan_directory_complete (fs : FileSys) (directory : List String)
    (hread : ∀ rel ∈ matchedRels fs directory SUPPORTED_FORMATS true,
      ∃ d, calculate_checksum fs (directory ++ rel) "sha256" = .ok d)
    (hkeys : ((matchedRels fs directory SUPPORTED_FORMATS true).map
      joinPath).Nodup) :
    scan_directory fs directory none true =
      .ok ((matchedRels fs directory SUPPORTED_FORMATS true).map
        (fun rel => (joinPath rel, digestOf fs (directory ++ rel)))) ∧
    ∀ rel ∈ matchedRels fs directory SUPPORTED_FORMATS true,
      calculate_checksum fs (directory ++ rel) "sha256" =
        .ok (digestOf fs (directory ++ rel)) := by
  constructor
  · rw [scan_eq_rels]
    simp only [Option.getD_none]
    rw [foldlM_scanStep_of_all_ok fs directory _ [] hread
      (fun rel _ => rfl) hkeys]
    simp
  · intro rel hrel
    obtain ⟨d, hd⟩ := hread rel hrel
    rw [hd]
    simp [digestOf, hd]

theorem scan_directory_complete_witness :
    scan_directory fsC4 [] none true =
      .ok ((matchedRels fsC4 [] SUPPORTED_FORMATS true).map
        (fun rel => (joinPath rel, digestOf fsC4 ([] ++ rel)))) ∧
    ∀ rel ∈ matchedRels fsC4 [] SUPPORTED_FORMATS true,
      calculate_checksum fsC4 ([] ++ rel) "sha256" =
        .ok (digestOf fsC4 ([] ++ rel)) :=
  scan_directory_complete fsC4 []
    (by
      intro rel hrel
      have he : matchedRels fsC4 [] SUPPORTED_FORMATS true =
          [["model.h5"], ["model2.pt"], ["sub", "deep.onnx"]] := by decide
      rw [he] at hrel
      simp only [List.mem_cons, List.not_mem_nil, or_false] at hrel
      rcases hrel with h | h | h <;> subst h <;> exact ⟨_, rfl⟩)
    (by decide)

/-- C5: a scan never returns a partially populated record when hashing an
individual matched file fails — if any matched file is unreadable the
whole scan fails, with the underlying `PermissionError` of the first
failing file. -/
theorem scan_directory_all_or_nothing (fs : FileSys) (directory : List String)
    (formats : Option (List String)) (recursive : Bool) (rel : List String)
    (hmem : rel ∈ matchedRels fs directory
      (formats.getD SUPPORTED_FORMATS) recursive)
    (hunread : fsLookup fs (directory ++ rel) = some none) :
    (∀ m, scan_directory fs directory formats recursive ≠ .ok m) ∧
    ∃ msg, scan_directory fs directory formats recursive =
      .error (.permissionError msg) := by
  have hcalcerr : calculate_checksum fs (directory ++ rel) "sha256" =
      .error (.permissionError
        ("[Errno 13] Permission denied: " ++ joinPath (directory ++ rel))) := by
    unfold calculate_checksum
    rw [hunread, show newHasher "sha256" = some ⟨"sha256", []⟩ by decide]
    rfl
  constructor
  · intro m hok
    rw [scan_eq_rels] at hok
    obtain ⟨d, hd⟩ := foldlM_scanStep_ok_all fs directory _ [] m hok rel hmem
    rw [hcalcerr] at hd
    exact Except.noConfusion hd
  · rw [scan_eq_rels]
    cases hres : (matchedRels fs directory
        (formats.getD SUPPORTED_FORMATS) recursive).foldlM
        (scanStep fs directory) [] with
    | ok m =>
      exfalso
      obtain ⟨d, hd⟩ := foldlM_scanStep_ok_all fs directory _ [] m hres rel hmem
      rw [hcalcerr] at hd
      exact Except.noConfusion hd
    | error e =>
      obtain ⟨rel2, hm2, he2⟩ := foldlM_scanStep_error fs directory _ [] e hres
      obtain ⟨entry2, hl2⟩ := matched_lookup fs directory _ recursive rel2 hm2
      obtain ⟨msg, hmsg⟩ :=
        calc_error_is_permission fs _ entry2 e hl2 he2
      exact ⟨msg, by rw [hmsg]⟩

theorem scan_directory_all_or_nothing_witness :
    (∀ m, scan_directory fsC5 [] none true ≠ .ok m) ∧
    ∃ msg, scan_directory fsC5 [] none true =
      .error (.permissionError msg) :=
  scan_directory_all_or_nothing fsC5 [] none true ["locked.pt"]
    (by decide) (by decide)

/-- C6: with `recursive=false` only direct children are considered — a
file in a subdirectory whose name matches an extension of the format set
is enumerated by the recursive scan but excluded from the non-recursive
one, every non-recursively enumerated file is a direct child, and the
record a non-recursive scan returns contains no key naming the
subdirectory file.  (The no-slash hypothesis is the real-filesystem fact
that path components contain no separator.) -/
theorem scan_nonrecursive_excludes (fs : FileSys)
    (directory rel : List String) (entry : Entry) (ext : String)
    (fmts : List String)
    (hfs : (directory ++ rel, entry) ∈ fs) (hext : ext ∈ fmts)
    (hend : strEndsWith (rel.getLastD "") ext = true)
    (hdeep : 2 ≤ rel.length)
    (hwf : ∀ kv ∈ fs, ∀ comp ∈ kv.1, ¬('/' ∈ comp.data)) :
    rel ∈ matchedRels fs directory fmts true ∧
    rel ∉ matchedRels fs directory fmts false ∧
    (∀ rel2 ∈ matchedRels fs directory fmts false, rel2.length = 1) ∧
    (∀ m, scan_directory fs directory (some fmts) false = .ok m →
      joinPath rel ∉ m.map Prod.fst) := by
  have hne : rel ≠ [] := by
    intro h
    subst h
    simp at hdeep
  have hg_true : globRel true ext rel = true := by
    have hend2 : strEndsWith (rel.getLast?.getD "") ext = true := by
      rw [← List.getLastD_eq_getLast?]
      exact hend
    simp [globRel, List.isEmpty_iff, hne, hend2]
  refine ⟨?_, ?_, ?_, ?_⟩
  · exact List.mem_flatMap.mpr
      ⟨ext, hext, mem_glob_intro fs directory true ext rel entry hfs hg_true⟩
  · intro hmem
    have := mem_matchedRels_length_one fs directory fmts rel hmem
    omega
  · intro rel2 h2
    exact mem_matchedRels_length_one fs directory fmts rel2 h2
  · intro m hok hkey
    obtain ⟨kv, hkv, hkveq⟩ := List.mem_map.mp hkey
    rw [scan_eq_rels] at hok
    simp only [Option.getD_some] at hok
    rcases foldlM_scanStep_keys fs directory _ [] m hok kv hkv with
      hacc | ⟨rel2, hm2, hk2⟩
    · simp at hacc
    · have hlen2 := mem_matchedRels_length_one fs directory fmts rel2 hm2
      obtain ⟨name, hname⟩ : ∃ name, rel2 = [name] := by
        match rel2, hlen2 with
        | [x], _ => exact ⟨x, rfl⟩
      obtain ⟨ext2, _, hglob2⟩ := List.mem_flatMap.mp hm2
      obtain ⟨entry2, hfs2, _⟩ :=
        mem_glob_elim fs directory false ext2 rel2 hglob2
      have hnoslash : ¬('/' ∈ name.data) := by
        apply hwf _ hfs2
        rw [hname]
        exact List.mem_append_right _ (by simp)
      have hslash : '/' ∈ (joinPath rel).data := by
        match rel, hdeep with
        | a :: b :: t, _ => exact joinPath_deep_slash a b t
      have heqn : joinPath rel = name := by
        rw [← hkveq, hk2, hname]
        rfl
      rw [heqn] at hslash
      exact hnoslash hslash

theorem scan_nonrecursive_excludes_witness :
    ["sub", "m.h5"] ∈ matchedRels fsC6 [] SUPPORTED_FORMATS true ∧
    ["sub", "m.h5"] ∉ matchedRels fsC6 [] SUPPORTED_FORMATS false ∧
    (∀ rel2 ∈ matchedRels fsC6 [] SUPPORTED_FORMATS false,
      rel2.length = 1) ∧
    (∀ m, scan_directory fsC6 [] (some SUPPORTED_FORMATS) false = .ok m →
      joinPath ["sub", "m.h5"] ∉ m.map Prod.fst) :=
  scan_nonrecursive_excludes fsC6 [] ["sub", "m.h5"] (some "b") ".h5"
    SUPPORTED_FORMATS (by decide) (by decide) (by decide) (by decide)
    (by decide)

/-! ## CLI theorems -/

set_option maxRecDepth 4000 in
/-- C7 counterexample: the claim says supplying both `--checksum` and
`--checksum-file` is rejected, but the code accepts the invocation — with
a wrong `--checksum` value and a correct checksum file it proceeds with
the checksum file and exits 0. -/
theorem verify_both_flags_accepted_counterexample :
    main fsC7 (some (.verify ["m.h5"] (some "deadbeef") (some ["sums.json"]))) =
      .ok (fsC7, 0, ["✓ Checksum verified successfully"], []) := by
  decide

/-- C7 (amended): `verify` with neither flag is a usage error that returns
exit code 1 before any file access (the result is the same for every
filesystem state); but supplying both flags is accepted, not rejected —
`--checksum-file` silently takes precedence and `--checksum` is
ignored. -/
theorem verify_flag_requirement :
    (∀ (fs : FileSys) (model : List String),
      main fs (some (.verify model none none)) =
        .ok (fs, 1, [],
          ["Error: Either --checksum or --checksum-file required"])) ∧
    (∀ (fs : FileSys) (model : List String) (c : String) (cf : List String),
      cf ≠ [] →
      main fs (some (.verify model (some c) (some cf))) =
        main fs (some (.verify model none (some cf)))) := by
  constructor
  · intro fs model
    rfl
  · intro fs model c cf hcf
    have hpt : truthyP (some cf) = true := by
      simp [truthyP, List.isEmpty_iff, hcf]
    simp only [main, hpt, Bool.not_true, Bool.and_false, Bool.false_eq_true,
      if_false]
    rw [show cmd_verify fs model (some c) (some cf) =
          cmd_verify fs model none (some cf) by
      simp only [cmd_verify, hpt, if_true]]

theorem verify_flag_requirement_witness :
    main ([] : FileSys) (some (.verify ["m.h5"] none none)) =
      .ok ([], 1, [],
        ["Error: Either --checksum or --checksum-file required"]) ∧
    main fsC7 (some (.verify ["m.h5"] (some "deadbeef") (some ["sums.json"]))) =
      main fsC7 (some (.verify ["m.h5"] none (some ["sums.json"]))) :=
  ⟨verify_flag_requirement.1 [] ["m.h5"],
   verify_flag_requirement.2 fsC7 ["m.h5"] "deadbeef" ["sums.json"]
     (by decide)⟩

/-- C2 counterexample: the claim says the command shell catches every
error at its boundary, but `cmd_verify` only catches `FileNotFoundError`
when loading the checksum file — a corrupt checksum file raises
`JSONDecodeError`, which escapes `main` as an unstructured crash. -/
theorem cli_crash_counterexample :
    main fsC2 (some (.verify ["model.h5"] none (some ["bad.json"]))) =
      .error (.jsonDecodeError "Expecting value: line 1 column 1 (char 0)") := by
  decide

/-- C2 (amended): each handler catches only the specific errors it
anticipates, writing a one-line message to stderr and returning 1:
`calculate` catches a missing model file; `verify` catches a missing
checksum file; `scan` returns 0 whenever the scan itself succeeds.  Other
errors — in particular a corrupt checksum file in `verify` — escape the
shell as uncaught exceptions. -/
theorem cli_error_handling :
    (∀ (fs : FileSys) (model : List String),
      fsLookup fs model = none →
      cmd_calculate fs model none =
        .ok (fs, 1, [],
          ["Error: " ++ ("File not found: " ++ joinPath model)])) ∧
    (∀ (fs : FileSys) (model cf : List String),
      cf ≠ [] → fsLookup fs cf = none →
      main fs (some (.verify model none (some cf))) =
        .ok (fs, 1, [],
          ["Error: " ++
            ("[Errno 2] No such file or directory: " ++ joinPath cf)])) ∧
    (∀ (fs : FileSys) (d : List String) (f : Option String) (nr : Bool)
        (o : Option (List String)) (r : Record),
      scan_directory fs d
          (if truthyS f then some (pySplit ',' (f.getD "")) else none)
          (!nr) = .ok r →
      ∃ fs2 out, main fs (some (.scan d f nr o)) = .ok (fs2, 0, out, [])) ∧
    (∀ (fs : FileSys) (model cf : List String) (content : String),
      cf ≠ [] → fsLookup fs cf = some (some content) →
      json_loads content.data = none →
      main fs (some (.verify model none (some cf))) =
        .error (.jsonDecodeError "Expecting value: line 1 column 1 (char 0)")) := by
  refine ⟨?_, ?_, ?_, ?_⟩
  · intro fs model h
    have hcalc : calculate_checksum fs model "sha256" =
        .error (.fileNotFound ("File not found: " ++ joinPath model)) := by
      unfold calculate_checksum
      rw [h]
    simp [cmd_calculate, hcalc]
  · intro fs model cf hcf h
    have hpt : truthyP (some cf) = true := by
      simp [truthyP, List.isEmpty_iff, hcf]
    have hload : load_checksums fs cf =
        .error (.fileNotFound
          ("[Errno 2] No such file or directory: " ++ joinPath cf)) := by
      unfold load_checksums
      rw [h]
    simp only [main, hpt, Bool.not_true, Bool.and_false, Bool.false_eq_true,
      if_false]
    simp [cmd_verify, hpt, Option.getD_some, hload]
  · intro fs d f nr o r hscan
    simp only [main, cmd_scan]
    rw [hscan]
    match o with
    | none => exact ⟨fs, [json_dumps r], rfl⟩
    | some outp =>
      exact ⟨save_checksums fs r outp,
        ["Found " ++ toString r.length
          ++ " model file(s). Checksums saved to " ++ joinPath outp], rfl⟩
  · intro fs model cf content hcf h hparse
    have hpt : truthyP (some cf) = true := by
      simp [truthyP, List.isEmpty_iff, hcf]
    have hload : load_checksums fs cf =
        .error (.jsonDecodeError "Expecting value: line 1 column 1 (char 0)") := by
      unfold load_checksums
      rw [h]
      simp only [openRead]
      rw [hparse]
    simp only [main, hpt, Bool.not_true, Bool.and_false, Bool.false_eq_true,
      if_false]
    simp [cmd_verify, hpt, Option.getD_some, hload]

theorem cli_error_handling_witness :
    cmd_calculate ([] : FileSys) ["gone.pt"] none =
      .ok ([], 1, [],
        ["Error: " ++ ("File not found: " ++ joinPath ["gone.pt"])]) ∧
    main ([] : FileSys) (some (.verify ["m"] none (some ["missing.json"]))) =
      .ok ([], 1, [],
        ["Error: " ++
          ("[Errno 2] No such file or directory: "
            ++ joinPath ["missing.json"])]) ∧
    (∃ fs2 out,
      main [(["a.h5"], some "x")] (some (.scan [] none false none)) =
        .ok (fs2, 0, out, [])) ∧
    main fsC2 (some (.verify ["model.h5"] none (some ["bad.json"]))) =
      .error (.jsonDecodeError "Expecting value: line 1 column 1 (char 0)") :=
  ⟨cli_error_handling.1 [] ["gone.pt"] rfl,
   cli_error_handling.2.1 [] ["m"] ["missing.json"] (by decide) rfl,
   cli_error_handling.2.2.1 [(["a.h5"], some "x")] [] none false none
     [("a.h5",
       "2d711642b726b04401627ca9fbac32f5c8530fb1903cc4db02258717921a4881")]
     (by decide),
   cli_error_handling.2.2.2 fsC2 ["model.h5"] ["bad.json"] "oops"
     (by decide) rfl (by decide)⟩

/-! ## The frame property of `get_supported_formats` -/

/-- C9: `get_supported_formats` returns a fresh copy — mutating the list
object it returned leaves the module-level `SUPPORTED_FORMATS` list
unchanged, so a later `get_supported_formats` call still returns the
original contents and a `scan_directory` call with the default format
filter still filters by the original format set. -/
theorem get_supported_formats_fresh_copy (h : PyHeap) (hnext : 1 ≤ h.next)
    (v : List String) (fs : FileSys) (directory : List String)
    (recursive : Bool) :
    (heapWrite (get_supported_formats h).2 (get_supported_formats h).1
        v).lists formatsAddr = h.lists formatsAddr ∧
    readList
        (get_supported_formats
          (heapWrite (get_supported_formats h).2
            (get_supported_formats h).1 v)).2
        (get_supported_formats
          (heapWrite (get_supported_formats h).2
            (get_supported_formats h).1 v)).1 =
      h.lists formatsAddr ∧
    scan_directory_default
        (heapWrite (get_supported_formats h).2 (get_supported_formats h).1 v)
        fs directory recursive =
      scan_directory_default h fs directory recursive := by
  have hzero : ¬(formatsAddr = h.next) := by
    unfold formatsAddr
    omega
  have h1 : (heapWrite (get_supported_formats h).2
      (get_supported_formats h).1 v).lists formatsAddr =
      h.lists formatsAddr := by
    simp only [get_supported_formats, heapWrite]
    rw [if_neg hzero, if_neg hzero]
  refine ⟨h1, ?_, ?_⟩
  · simp only [get_supported_formats, readList, heapWrite]
    simp [hzero]
  · unfold scan_directory_default
    rw [show readList (heapWrite (get_supported_formats h).2
          (get_supported_formats h).1 v) formatsAddr =
        readList h formatsAddr from h1]

theorem get_supported_formats_fresh_copy_witness :
    (heapWrite (get_supported_formats initHeap).2
        (get_supported_formats initHeap).1 []).lists formatsAddr =
      initHeap.lists formatsAddr ∧
    readList
        (get_supported_formats
          (heapWrite (get_supported_formats initHeap).2
            (get_supported_formats initHeap).1 [])).2
        (get_supported_formats
          (heapWrite (get_supported_formats initHeap).2
            (get_supported_formats initHeap).1 [])).1 =
      initHeap.lists formatsAddr ∧
    scan_directory_default
        (heapWrite (get_supported_formats initHeap).2
          (get_supported_formats initHeap).1 [])
        fsC4 [] true =
      scan_directory_default initHeap fsC4 [] true :=
  get_supported_formats_fresh_copy initHeap (by decide) [] fsC4 [] true

end ModelIntegrity
